import Mathlib

/-!
Verification development for the `ducc` embedding layer: a shallow embedding of
the reference/value lifetime management core (`src/ducc/src/ducc.rs`), the value
model (`src/ducc/src/value.rs`), the error model (`src/ducc/src/error.rs`) and
the tuple conversion helpers (`src/ducc/src/conversion.rs`).

The Duktape engine itself (its interpreter, compiler and GC) is an external
collaborator; it is modelled here at its stack-machine interface: a native value
stack, the heap stash (an integer-keyed table of engine values), one hidden
numeric counter global used to generate stash keys, and a heap classifying each
engine object (function / array / plain object / string / buffer).  Machine
`u32` indices are modelled as `Nat` with explicit reduction modulo `2 ^ 32`;
`f64` payloads are carried as opaque bit patterns (`Nat`), since no arithmetic
on them is performed by the embedded code.  A Rust panic (an `assert!` firing or
an explicit `panic!`) is modelled as the `Option` value `none`; a recoverable
`Result::Err` is modelled through `Except`.
-/

set_option autoImplicit false

namespace Ducc

/-- The 32-bit stash key space: `duk_uarridx_t` keys generated by `pop_ref`. -/
def keySpace : Nat := 2 ^ 32

/-- Runtime classification of an engine heap object, as observable through the
Duktape predicates `duk_is_function` / `duk_is_array` and the type tag returned
by `duk_get_type`. -/
inductive EClass where
  | eFunction
  | eArray
  | ePlainObject
  | eString
  | eBuffer
  deriving DecidableEq, Repr

/-- A value in one native stack slot or stash slot.  Reference-typed slots hold
the identity (`id`) of a heap object; `pointer` models the slot types that
`pop_value` cannot decode (e.g. `DUK_TYPE_POINTER`). -/
inductive EVal where
  | undef
  | null
  | boolean (b : Bool)
  | number (bits : Nat)
  | ref (id : Nat)
  | pointer (p : Nat)
  deriving DecidableEq, Repr

/-- The type tags returned by `duk_get_type`. -/
inductive DukType where
  | tUndefined
  | tNull
  | tBoolean
  | tNumber
  | tString
  | tObject
  | tBuffer
  | tPointer
  deriving DecidableEq, Repr

/-- The engine-side state of one Duktape heap (`duk_context`):
`ctx` is the identity of the heap pointer, `stack` the native value stack (top
at the head), `stash` the heap stash table keyed by generated indices,
`stashCounter` the hidden `stashkey` numeric global read and written by
`pop_ref`, and `heap` the runtime class of every heap object. -/
structure EngineState where
  ctx : Nat
  stack : List EVal
  stash : Nat → Option EVal
  stashCounter : Nat
  heap : Nat → EClass

/-- `duk_get_type` on a slot value. -/
def dukGetType (s : EngineState) (v : EVal) : DukType :=
  match v with
  | .undef => .tUndefined
  | .null => .tNull
  | .boolean _ => .tBoolean
  | .number _ => .tNumber
  | .pointer _ => .tPointer
  | .ref id =>
    match s.heap id with
    | .eString => .tString
    | .eBuffer => .tBuffer
    | _ => .tObject

/-- `duk_is_function` on a slot value. -/
def dukIsFunction (s : EngineState) (v : EVal) : Bool :=
  match v with
  | .ref id => s.heap id = .eFunction
  | _ => false

/-- `duk_is_array` on a slot value. -/
def dukIsArray (s : EngineState) (v : EVal) : Bool :=
  match v with
  | .ref id => s.heap id = .eArray
  | _ => false

/-- `duk_get_boolean` on a slot value (`false` if the slot is not a boolean). -/
def dukGetBoolean (v : EVal) : Bool :=
  match v with
  | .boolean b => b
  | _ => false

/-- `duk_get_number` on a slot value (payload bits; `0` stands for the NaN
returned on non-numbers, which never occurs in the embedded call sites). -/
def dukGetNumber (v : EVal) : Nat :=
  match v with
  | .number n => n
  | _ => 0

/-- A host-side reference (`types.rs`: `Ref { ducc, stash_key }`): the identity
of the owning context and the stash slot key it owns. -/
structure Ref where
  ctx : Nat
  stash_key : Nat
  deriving DecidableEq, Repr

/-- `Ducc::push_ref`: asserts that the reference belongs to the active context
(`assert!(r.ducc.ctx == self.ctx, ...)`, modelled as `none` = panic), then
pushes the stash entry for its key onto the native stack
(`duk_push_heap_stash; duk_get_prop_index; duk_remove`; an absent property
index reads as `undefined`). -/
def push_ref (s : EngineState) (r : Ref) : Option EngineState :=
  if r.ctx = s.ctx then
    some { s with stack := ((s.stash r.stash_key).getD .undef) :: s.stack }
  else
    none

/-- The stash-key probe loop inside `Ducc::pop_ref`, with explicit fuel (first
argument).  Starting from the rotating counter it repeatedly increments the
candidate key (wrapping as a `u32`), panics (`some none`) when it reaches `0`
for the second time, and otherwise returns the first candidate key that has no
stash entry (`duk_has_prop_index == 0`). -/
def probe (stash : Nat → Option EVal) : Nat → Nat → Bool → Option (Option Nat)
  | 0, _, _ => none
  | fuel + 1, key, wrapped =>
    if (key + 1) % keySpace = 0 ∧ wrapped = true then
      some none
    else if (stash ((key + 1) % keySpace)).isSome then
      probe stash fuel ((key + 1) % keySpace)
        (if (key + 1) % keySpace = 0 then true else wrapped)
    else
      some (some ((key + 1) % keySpace))

/-- Fuel that provably suffices for `probe` to reach a verdict: the loop visits
at most the whole key space twice before its second arrival at `0`. -/
def popRefFuel : Nat := 2 * keySpace

/-- `Ducc::pop_ref`: reads the rotating counter from the hidden `stashkey`
global, probes for a fresh stash key, stores the found key back into the
counter global, moves the value on top of the native stack into the fresh stash
slot (`duk_dup; duk_put_prop_index`) and returns a new `Ref` owning that key.
`none` models a panic: either the probe concluded the whole key space is
occupied (`panic!("out of addressable space in duktape heap")`), or the native
stack was empty (an engine-level fatal, never reached by the library's call
sites). -/
def pop_ref (s : EngineState) : Option (Ref × EngineState) :=
  match s.stack with
  | [] => none
  | top :: rest =>
    match probe s.stash popRefFuel s.stashCounter false with
    | some (some k) =>
      some (⟨s.ctx, k⟩,
        { s with
            stack := rest,
            stash := fun j => if j = k then some top else s.stash j,
            stashCounter := k })
    | _ => none

/-- `Ducc::clone_ref`: `push_ref` followed by `pop_ref`. -/
def clone_ref (s : EngineState) (r : Ref) : Option (Ref × EngineState) :=
  match push_ref s r with
  | some s1 => pop_ref s1
  | none => none

/-- `Ducc::drop_ref`: deletes the stash entry for the reference's key
(`duk_push_heap_stash; duk_del_prop_index; duk_pop`). -/
def drop_ref (s : EngineState) (r : Ref) : EngineState :=
  { s with stash := fun j => if j = r.stash_key then none else s.stash j }

/-- The host-side tagged value (`value.rs`: `enum Value`).  The five reference
kinds each carry the `Ref` of the underlying engine-heap object; `number`
carries the `f64` bit pattern. -/
inductive Value where
  | undefined
  | null
  | boolean (b : Bool)
  | number (bits : Nat)
  | string (r : Ref)
  | function (r : Ref)
  | array (r : Ref)
  | object (r : Ref)
  | bytes (r : Ref)
  deriving DecidableEq, Repr

/-- The tag of a `Value`. -/
inductive ValueKind where
  | kUndefined
  | kNull
  | kBoolean
  | kNumber
  | kString
  | kFunction
  | kArray
  | kObject
  | kBytes
  deriving DecidableEq, Repr

/-- The tag of a `Value`. -/
def Value.kind : Value → ValueKind
  | .undefined => .kUndefined
  | .null => .kNull
  | .boolean _ => .kBoolean
  | .number _ => .kNumber
  | .string _ => .kString
  | .function _ => .kFunction
  | .array _ => .kArray
  | .object _ => .kObject
  | .bytes _ => .kBytes

/-- `Value::as_null` as written in `value.rs`: it tests for `Value::Undefined`
(the body is `if let Value::Undefined = *self { Some(()) } else { None }`). -/
def Value.as_null : Value → Option Unit
  | .undefined => some ()
  | _ => none

/-- `Value::is_null`: `true` exactly for `Value::Null`. -/
def Value.is_null : Value → Bool
  | .null => true
  | _ => false

/-- `Ducc::push_value`: primitives push the corresponding native slot value
directly; the five reference kinds delegate to `push_ref` (which panics on a
cross-context reference, modelled as `none`). -/
def push_value (s : EngineState) (v : Value) : Option EngineState :=
  match v with
  | .undefined => some { s with stack := .undef :: s.stack }
  | .null => some { s with stack := .null :: s.stack }
  | .boolean b => some { s with stack := .boolean b :: s.stack }
  | .number n => some { s with stack := .number n :: s.stack }
  | .string r => push_ref s r
  | .function r => push_ref s r
  | .array r => push_ref s r
  | .object r => push_ref s r
  | .bytes r => push_ref s r

/-- `Ducc::pop_value`: dispatches on `duk_get_type` of the top slot; primitive
tags pop directly, `DUK_TYPE_STRING` / `DUK_TYPE_BUFFER` wrap a fresh `pop_ref`
in `Value.string` / `Value.bytes`, and `DUK_TYPE_OBJECT` applies
`duk_is_function`, then `duk_is_array`, before falling back to a generic
object.  The source's `_ => Value::Undefined` arm computes `Value::Undefined`
without popping the slot, so the surrounding `assert_stack!(self.ctx, -1, ...)`
height check (an unconditional `assert_eq!`) fails: reaching that arm is a
panic, modelled as `none`. -/
def pop_value (s : EngineState) : Option (Value × EngineState) :=
  match s.stack with
  | [] => none
  | top :: rest =>
    match dukGetType s top with
    | .tUndefined => some (.undefined, { s with stack := rest })
    | .tNull => some (.null, { s with stack := rest })
    | .tBoolean => some (.boolean (dukGetBoolean top), { s with stack := rest })
    | .tNumber => some (.number (dukGetNumber top), { s with stack := rest })
    | .tString =>
      match pop_ref s with
      | some (r, s') => some (.string r, s')
      | none => none
    | .tObject =>
      if dukIsFunction s top then
        match pop_ref s with
        | some (r, s') => some (.function r, s')
        | none => none
      else if dukIsArray s top then
        match pop_ref s with
        | some (r, s') => some (.array r, s')
        | none => none
      else
        match pop_ref s with
        | some (r, s') => some (.object r, s')
        | none => none
    | .tBuffer =>
      match pop_ref s with
      | some (r, s') => some (.bytes r, s')
      | none => none
    | .tPointer => none

/-- Well-formedness of a host `Value` against an engine state: reference kinds
belong to the active context and their stash slot holds a heap object of the
matching runtime class (for `object`, the source guarantees the object is
neither an array nor a function). -/
def ValueWF (s : EngineState) : Value → Prop
  | .undefined => True
  | .null => True
  | .boolean _ => True
  | .number _ => True
  | .string r =>
    r.ctx = s.ctx ∧ ∃ id, s.stash r.stash_key = some (.ref id) ∧ s.heap id = .eString
  | .function r =>
    r.ctx = s.ctx ∧ ∃ id, s.stash r.stash_key = some (.ref id) ∧ s.heap id = .eFunction
  | .array r =>
    r.ctx = s.ctx ∧ ∃ id, s.stash r.stash_key = some (.ref id) ∧ s.heap id = .eArray
  | .object r =>
    r.ctx = s.ctx ∧ ∃ id, s.stash r.stash_key = some (.ref id) ∧ s.heap id = .ePlainObject
  | .bytes r =>
    r.ctx = s.ctx ∧ ∃ id, s.stash r.stash_key = some (.ref id) ∧ s.heap id = .eBuffer

/-- Round-trip relation between the original value (against the pre-push state)
and the popped value (against the post-pop state): equal payloads for
primitives; for reference kinds, the same tag and stash slots holding the very
same engine value (hence the identical heap object). -/
def RoundTripEq (s s' : EngineState) : Value → Value → Prop
  | .undefined, .undefined => True
  | .null, .null => True
  | .boolean b, .boolean b' => b = b'
  | .number n, .number n' => n = n'
  | .string r, .string r' =>
    s.stash r.stash_key = s'.stash r'.stash_key ∧ (s.stash r.stash_key).isSome
  | .function r, .function r' =>
    s.stash r.stash_key = s'.stash r'.stash_key ∧ (s.stash r.stash_key).isSome
  | .array r, .array r' =>
    s.stash r.stash_key = s'.stash r'.stash_key ∧ (s.stash r.stash_key).isSome
  | .object r, .object r' =>
    s.stash r.stash_key = s'.stash r'.stash_key ∧ (s.stash r.stash_key).isSome
  | .bytes r, .bytes r' =>
    s.stash r.stash_key = s'.stash r'.stash_key ∧ (s.stash r.stash_key).isSome
  | _, _ => False

/-- The classification described by the Value Model specification, stated as a
predicate chain in the spec's order: is-function, then is-array, then
is-buffer, then is-string, otherwise a generic object; slots whose type cannot
be classified degrade to `Undefined`.  This is the spec-side definition used to
compare `pop_value`'s classification against the specified order. -/
def specClassify (s : EngineState) (v : EVal) : ValueKind :=
  match v with
  | .undef => .kUndefined
  | .null => .kNull
  | .boolean _ => .kBoolean
  | .number _ => .kNumber
  | _ =>
    if dukIsFunction s v then .kFunction
    else if dukIsArray s v then .kArray
    else if dukGetType s v = .tBuffer then .kBytes
    else if dukGetType s v = .tString then .kString
    else if dukGetType s v = .tObject then .kObject
    else .kUndefined

/-- `Values::get` (`value.rs`): indexed access into an argument list, yielding
`Value::Undefined` past the end (`self.0.get(index).map(Clone::clone)
.unwrap_or(Value::Undefined)`). -/
def Values.get (vs : List Value) (index : Nat) : Value :=
  (vs.get? index).getD .undefined

/-- `enum RuntimeErrorCode` (`error.rs`). -/
inductive RuntimeErrorCode where
  | error
  | evalError
  | rangeError
  | referenceError
  | syntaxError
  | typeError
  | uriError
  deriving DecidableEq, Repr

/-- `enum ErrorKind` (`error.rs`, the stacked-context generation under
`src/ducc/src`).  The `ExternalError` variant holds a type-erased
`Box<dyn RuntimeError>`; it is modelled by its interface: the error-class code,
name, optional message, and the text its `Debug` formatting produces (used by
`Display for Error`, which formats the boxed error). -/
inductive ErrorKind where
  | toJsConversionError (fromTy toTy : String)
  | fromJsConversionError (fromTy toTy : String)
  | runtimeError (code : RuntimeErrorCode) (name : String)
  | recursiveMutCallback
  | externalError (code : RuntimeErrorCode) (name : String) (msg : Option String)
      (dbgText : String)
  | notAFunction
  deriving DecidableEq, Repr

/-- `struct Error` (`error.rs`): an `ErrorKind` plus the list of accumulated
context strings (`context: Vec<String>`, pushed at the end as the error
propagates). -/
structure Error where
  kind : ErrorKind
  context : List String
  deriving DecidableEq, Repr

/-- `Error::recursive_mut_callback()`. -/
def Error.recursive_mut_callback : Error :=
  ⟨.recursiveMutCallback, []⟩

/-- `Error::not_a_function()`. -/
def Error.not_a_function : Error :=
  ⟨.notAFunction, []⟩

/-- The per-kind text written by `impl fmt::Display for Error` after the
context prefixes.  For `ExternalError` the source formats the boxed error
(`err.fmt(fmt)`), modelled by its recorded `Debug` text. -/
def ErrorKind.displayString : ErrorKind → String
  | .toJsConversionError f t => "error converting " ++ f ++ " to JavaScript " ++ t
  | .fromJsConversionError f t => "error converting JavaScript " ++ f ++ " to " ++ t
  | .runtimeError _ name => "JavaScript runtime error (" ++ name ++ ")"
  | .recursiveMutCallback => "mutable callback called recursively"
  | .notAFunction => "tried to a call a non-function"
  | .externalError _ _ _ dbg => dbg

/-- `impl fmt::Display for Error`: writes `"{}: "` for each context string in
`self.context.iter().rev()` order (most recently pushed first), then the
kind-specific text. -/
def Error.displayString (e : Error) : String :=
  String.join (e.context.reverse.map (fun c => c ++ ": ")) ++ e.kind.displayString

/-- `ResultExt::js_err_context` for `Result<T, Error>` (`error.rs`, stacked
generation): on `Err`, pushes the new context string onto the end of the
error's `context` vector; `Ok` passes through untouched. -/
def js_err_context {α : Type} (res : Except Error α) (context : String) :
    Except Error α :=
  match res with
  | .error e => .error { e with context := e.context ++ [context] }
  | .ok a => .ok a

/-- A sequence of `js_err_context` annotations applied as an error propagates
outward (first element = first, innermost annotation). -/
def applyContexts {α : Type} (res : Except Error α) (anns : List String) :
    Except Error α :=
  anns.foldl js_err_context res

/-- The closure produced by `Ducc::create_function_mut` around a mutable Rust
closure: `func` lives in a `RefCell`, and each invocation runs
`func.try_borrow_mut().map_err(|_| Error::recursive_mut_callback())?`.
`borrowed` is the state of the `RefCell`'s exclusive borrow at invocation time:
`try_borrow_mut` fails exactly when the borrow is already held (a re-entrant
invocation), turning it into the typed recursive-mutable-callback error instead
of a double-mutable-borrow fault. -/
def createFunctionMutWrapper {α β : Type} (borrowed : Bool)
    (func : α → Except Error β) (invocation : α) : Except Error β :=
  if borrowed then .error Error.recursive_mut_callback
  else func invocation

/-- `Ducc::coerce_string`: an already-`String` value is returned as-is without
touching the engine; any other value goes through the engine's `ToString`
algorithm (push, protected `duk_to_string`, `pop_ref`), abstracted here as the
`prim` argument since the engine's interpreter is an external collaborator. -/
def coerce_string (prim : EngineState → Value → Except Error (Ref × EngineState))
    (s : EngineState) (v : Value) : Except Error (Ref × EngineState) :=
  match v with
  | .string r => .ok (r, s)
  | v => prim s v

/-- `Ducc::coerce_number`: an already-`Number` value is returned as-is without
touching the engine; any other value goes through the engine's `ToNumber`
algorithm (push, protected `duk_to_number`), abstracted as `prim`. -/
def coerce_number (prim : EngineState → Value → Except Error Nat)
    (s : EngineState) (v : Value) : Except Error Nat :=
  match v with
  | .number n => .ok n
  | v => prim s v

/-- The `FromValues` implementation generated by `impl_tuple!` in
`conversion.rs`, with one converter per tuple position (the macro instantiates
one `FromValue::from_value` call per position): each position takes the next
value from the iterator, substituting `Value::Undefined` when the list is
exhausted (`iter.next().unwrap_or(Value::Undefined)`), and any remaining values
are never consumed. -/
def from_values_tuple {α : Type} :
    List (Value → Except Error α) → List Value → Except Error (List α)
  | [], _ => .ok []
  | conv :: convs, vs => do
    let x ← conv (vs.headD .undefined)
    let rest ← from_values_tuple convs vs.tail
    .ok (x :: rest)

/-- Steps remaining before the probe loop's second arrival at key `0`: a
strictly decreasing measure for `probe`. -/
def probeMeasure (key : Nat) (wrapped : Bool) : Nat :=
  (keySpace - key) + (if wrapped = true then 0 else keySpace)

lemma keySpace_pos : 0 < keySpace := by
  norm_num [keySpace]

/-- Splitting the wrapping increment `(key + 1) % 2 ^ 32` of a valid key. -/
lemma key_succ_mod (key : Nat) (hk : key < keySpace) :
    ((key + 1) % keySpace = key + 1 ∧ key + 1 < keySpace) ∨
      ((key + 1) % keySpace = 0 ∧ key + 1 = keySpace) := by
  rcases Nat.lt_or_ge (key + 1) keySpace with h | h
  · exact Or.inl ⟨Nat.mod_eq_of_lt h, h⟩
  · have heq : key + 1 = keySpace := by omega
    exact Or.inr ⟨by rw [heq, Nat.mod_self], heq⟩

/-- Termination of the probe loop: with fuel at least the measure of the start
state, `probe` reaches a verdict (it never runs out of fuel). -/
lemma probe_isSome_of_measure (stash : Nat → Option EVal) :
    ∀ fuel key wrapped, key < keySpace → probeMeasure key wrapped ≤ fuel →
      ∃ res, probe stash fuel key wrapped = some res := by
  intro fuel
  induction fuel with
  | zero =>
    intro key wrapped hk hm
    exfalso
    have h1 : 0 < keySpace - key := Nat.sub_pos_of_lt hk
    cases wrapped <;> simp [probeMeasure] at hm <;> omega
  | succ n ih =>
    intro key wrapped hk hm
    rw [probe]
    by_cases h1 : (key + 1) % keySpace = 0 ∧ wrapped = true
    · rw [if_pos h1]
      exact ⟨none, rfl⟩
    · rw [if_neg h1]
      by_cases h2 : (stash ((key + 1) % keySpace)).isSome
      · rw [if_pos h2]
        rcases key_succ_mod key hk with ⟨hmod, hlt⟩ | ⟨hmod, heq⟩
        · have hne : ¬((key + 1) % keySpace = 0) := by omega
          rw [if_neg hne]
          refine ih _ _ (by omega) ?_
          rw [hmod]
          cases wrapped <;> simp [probeMeasure] at hm ⊢ <;> omega
        · rw [hmod, if_pos rfl]
          refine ih _ _ keySpace_pos ?_
          have hw : wrapped = false := by
            cases wrapped
            · rfl
            · exact absurd ⟨hmod, rfl⟩ h1
          subst hw
          simp [probeMeasure] at hm ⊢
          omega
      · rw [if_neg h2]
        exact ⟨some ((key + 1) % keySpace), rfl⟩

/-- Soundness of a successful probe: a returned key is a valid 32-bit key with
no stash entry (a fresh, unoccupied slot). -/
lemma probe_fresh (stash : Nat → Option EVal) :
    ∀ fuel key wrapped k, probe stash fuel key wrapped = some (some k) →
      k < keySpace ∧ stash k = none := by
  intro fuel
  induction fuel with
  | zero =>
    intro key wrapped k h
    simp [probe] at h
  | succ n ih =>
    intro key wrapped k h
    rw [probe] at h
    by_cases h1 : (key + 1) % keySpace = 0 ∧ wrapped = true
    · rw [if_pos h1] at h
      exact absurd h (by simp)
    · rw [if_neg h1] at h
      by_cases h2 : (stash ((key + 1) % keySpace)).isSome
      · rw [if_pos h2] at h
        exact ih _ _ _ h
      · rw [if_neg h2] at h
        have hk : k = (key + 1) % keySpace := by
          simpa using h.symm
        subst hk
        exact ⟨Nat.mod_lt _ keySpace_pos, Option.not_isSome_iff_eq_none.mp h2⟩

/-- The probe loop panics only after having seen every key occupied: if it
reports exhaustion (`some none`), every key of the 32-bit stash key space holds
an entry.  The `wrapped` invariant records that all keys up to the current one
have been seen occupied once the counter has wrapped. -/
lemma probe_panic_full (stash : Nat → Option EVal) :
    ∀ fuel key wrapped, key < keySpace →
      (wrapped = true → ∀ j, j ≤ key → (stash j).isSome) →
      probe stash fuel key wrapped = some none →
      ∀ j, j < keySpace → (stash j).isSome := by
  intro fuel
  induction fuel with
  | zero =>
    intro key wrapped _ _ h
    simp [probe] at h
  | succ n ih =>
    intro key wrapped hk hinv h
    rw [probe] at h
    by_cases h1 : (key + 1) % keySpace = 0 ∧ wrapped = true
    · have hkey : key + 1 = keySpace := by
        rcases key_succ_mod key hk with ⟨hmod, hlt⟩ | ⟨_, heq⟩
        · omega
        · exact heq
      intro j hj
      exact hinv h1.2 j (by omega)
    · rw [if_neg h1] at h
      by_cases h2 : (stash ((key + 1) % keySpace)).isSome
      · rw [if_pos h2] at h
        rcases key_succ_mod key hk with ⟨hmod, hlt⟩ | ⟨hmod, heq⟩
        · have hne : ¬((key + 1) % keySpace = 0) := by omega
          rw [if_neg hne, hmod] at h
          rw [hmod] at h2
          refine ih _ _ hlt ?_ h
          intro hw j hj
          rcases Nat.lt_or_ge j (key + 1) with hj' | hj'
          · exact hinv hw j (by omega)
          · have : j = key + 1 := by omega
            rw [this]
            exact h2
        · rw [hmod, if_pos rfl] at h
          refine ih _ _ keySpace_pos ?_ h
          intro _ j hj
          have : j = (key + 1) % keySpace := by omega
          rw [this]
          exact h2
      · rw [if_neg h2] at h
        exact absurd h (by simp)

/-- Complete behaviour of a successful `pop_ref`: under a nonempty stack, a
valid rotating counter and at least one free stash key, `pop_ref` returns a new
`Ref` owning a fresh key, the popped value stored under that key, and the
counter advanced to it. -/
lemma pop_ref_spec (s : EngineState) (top : EVal) (rest : List EVal)
    (hstack : s.stack = top :: rest)
    (hc : s.stashCounter < keySpace)
    (hfree : ∃ k, k < keySpace ∧ s.stash k = none) :
    ∃ k, k < keySpace ∧ s.stash k = none ∧
      pop_ref s = some (⟨s.ctx, k⟩,
        { s with
            stack := rest,
            stash := fun j => if j = k then some top else s.stash j,
            stashCounter := k }) := by
  obtain ⟨res, hres⟩ := probe_isSome_of_measure s.stash popRefFuel s.stashCounter false hc
    (by simp [popRefFuel, probeMeasure]; omega)
  cases res with
  | none =>
    exfalso
    obtain ⟨kf, hkf, hkfnone⟩ := hfree
    have := probe_panic_full s.stash popRefFuel s.stashCounter false hc
      (by intro hw; exact absurd hw (by simp)) hres kf hkf
    rw [hkfnone] at this
    simp at this
  | some k =>
    obtain ⟨hk1, hk2⟩ := probe_fresh s.stash popRefFuel s.stashCounter false k hres
    refine ⟨k, hk1, hk2, ?_⟩
    simp only [pop_ref, hstack, hres]

lemma take_succ_headD (vs : List Value) (n : Nat) :
    (vs.take (n + 1)).headD .undefined = vs.headD .undefined := by
  cases vs <;> simp

lemma take_succ_tail (vs : List Value) (n : Nat) :
    (vs.take (n + 1)).tail = vs.tail.take n := by
  cases vs <;> simp

lemma pad_succ_headD (vs : List Value) (n : Nat) :
    (vs ++ List.replicate (n + 1 - vs.length) Value.undefined).headD .undefined =
      vs.headD .undefined := by
  cases vs <;> simp [List.replicate_succ]

lemma pad_succ_tail (vs : List Value) (n : Nat) :
    (vs ++ List.replicate (n + 1 - vs.length) Value.undefined).tail =
      vs.tail ++ List.replicate (n - vs.tail.length) Value.undefined := by
  cases vs <;> simp [List.replicate_succ]

lemma string_foldl_shift (l : List String) (a : String) :
    List.foldl (fun r s => r ++ s) a l =
      a ++ List.foldl (fun r s => r ++ s) "" l := by
  induction l generalizing a with
  | nil => simp [List.foldl, String.append_empty]
  | cons x l ih =>
    simp only [List.foldl]
    rw [ih (a ++ x), ih ("" ++ x), String.empty_append, String.append_assoc]

lemma string_join_append (l1 l2 : List String) :
    String.join (l1 ++ l2) = String.join l1 ++ String.join l2 := by
  induction l1 with
  | nil => simp [String.join, List.foldl, String.empty_append]
  | cons a l ih =>
    have h1 : String.join ((a :: l) ++ l2) = ("" ++ a) ++ String.join (l ++ l2) := by
      simp only [String.join, List.cons_append, List.foldl]
      exact string_foldl_shift _ _
    have h2 : String.join (a :: l) = ("" ++ a) ++ String.join l := by
      simp only [String.join, List.foldl]
      exact string_foldl_shift _ _
    rw [h1, h2, ih]
    simp only [String.empty_append, String.append_assoc]

/-- C3: For every Reference `r` and every context, pushing `r` while a context
whose heap pointer differs from `r`'s owning context is active is detected and
causes a panic (modelled as `none` — `push_ref` has no recoverable error
channel at all), and never a silent operation on the wrong heap: `push_ref`
panics exactly on a context mismatch, and on a match it performs the stash
lookup on the matching heap. -/
theorem push_ref_cross_context_panics (s : EngineState) (r : Ref) :
    (push_ref s r = none ↔ r.ctx ≠ s.ctx) ∧
    (r.ctx = s.ctx →
      push_ref s r =
        some { s with stack := ((s.stash r.stash_key).getD .undef) :: s.stack }) := by
  constructor
  · constructor
    · intro h hctx
      simp [push_ref, hctx] at h
    · intro h
      simp [push_ref, h]
  · intro h
    simp [push_ref, h]

/-- Witness for `push_ref_cross_context_panics` at a concrete state and a
reference owned by a different context. -/
theorem push_ref_cross_context_panics_witness :
    (push_ref ⟨0, [], fun _ => none, 0, fun _ => .eString⟩ ⟨1, 4⟩ = none ↔
      (⟨1, 4⟩ : Ref).ctx ≠ (0 : Nat)) ∧
    ((⟨1, 4⟩ : Ref).ctx = (0 : Nat) →
      push_ref ⟨0, [], fun _ => none, 0, fun _ => .eString⟩ ⟨1, 4⟩ =
        some { (⟨0, [], fun _ => none, 0, fun _ => .eString⟩ : EngineState) with
                 stack := [((none : Option EVal).getD .undef)] }) :=
  push_ref_cross_context_panics ⟨0, [], fun _ => none, 0, fun _ => .eString⟩ ⟨1, 4⟩

/-- C4: a re-entered `create_function_mut` closure — directly, or transitively
with the nested re-entry happening while the outer invocation still holds the
`RefCell`'s exclusive borrow — returns the recoverable
recursive-mutable-callback error variant (an `Except.error`, not a
double-mutable-borrow fault or a panic). -/
theorem create_function_mut_reentrancy {α β : Type} (g : α → Except Error β)
    (invocation invocation' : α) :
    createFunctionMutWrapper true g invocation' =
      .error Error.recursive_mut_callback ∧
    createFunctionMutWrapper false
        (fun _ => createFunctionMutWrapper true g invocation') invocation =
      .error Error.recursive_mut_callback ∧
    Error.recursive_mut_callback.kind = ErrorKind.recursiveMutCallback :=
  ⟨rfl, rfl, rfl⟩

/-- C9: `as_null` returns `some ()` exactly on `Value.undefined` (as the source
is written), returns `none` on `Value.null`, while `is_null` is `true` exactly
on `Value.null`. -/
theorem as_null_matches_undefined (v : Value) :
    (Value.as_null v = some () ↔ v = Value.undefined) ∧
    Value.as_null Value.null = none ∧
    (Value.is_null v = true ↔ v = Value.null) := by
  refine ⟨?_, rfl, ?_⟩ <;> cases v <;> simp [Value.as_null, Value.is_null]

/-- C10: the coercion helpers are the identity on already-coerced inputs and
cannot fail there, and do so for every possible engine coercion primitive
(hence without invoking the engine's `ToString` / `ToNumber` algorithms). -/
theorem coerce_identity_on_matching (s : EngineState) (r : Ref) (n : Nat)
    (primS : EngineState → Value → Except Error (Ref × EngineState))
    (primN : EngineState → Value → Except Error Nat) :
    coerce_string primS s (.string r) = .ok (r, s) ∧
    coerce_number primN s (.number n) = .ok n :=
  ⟨rfl, rfl⟩

/-- C7 (counterexample): starting from `Error::not_a_function()` and annotating
with `"inner"` first (the innermost context) and `"outer"` second, the
accumulated context is `["inner", "outer"]`, but the rendered display begins
with `"outer"` — the most recently added, outermost context — not with the
innermost one, so the display order is not innermost-first. -/
theorem error_display_order_cex :
    applyContexts (Except.error Error.not_a_function : Except Error Unit)
        ["inner", "outer"] =
      Except.error ⟨.notAFunction, ["inner", "outer"]⟩ ∧
    Error.displayString ⟨.notAFunction, ["inner", "outer"]⟩ =
      "outer: inner: tried to a call a non-function" ∧
    Error.displayString ⟨.notAFunction, ["inner", "outer"]⟩ ≠
      "inner: outer: tried to a call a non-function" := by
  refine ⟨rfl, by decide, by decide⟩

/-- C7 (amended): annotations are accumulated — each `js_err_context` appends
to the existing context, preserving all prior context strings — and the
display renders the accumulated context strings in reverse order of
application: the most recently added (outermost) context first and the
innermost context last, adjacent to the base description. -/
theorem error_context_accumulation (e : Error) (anns : List String) :
    applyContexts (Except.error e : Except Error Unit) anns =
      Except.error ⟨e.kind, e.context ++ anns⟩ ∧
    Error.displayString ⟨e.kind, e.context ++ anns⟩ =
      String.join (anns.reverse.map (fun c => c ++ ": ")) ++
        (String.join (e.context.reverse.map (fun c => c ++ ": ")) ++
          e.kind.displayString) := by
  constructor
  · induction anns generalizing e with
    | nil => simp [applyContexts]
    | cons a as ih =>
      have step : applyContexts (Except.error e : Except Error Unit) (a :: as) =
          applyContexts (Except.error ⟨e.kind, e.context ++ [a]⟩ : Except Error Unit) as := by
        simp [applyContexts, js_err_context]
      rw [step, ih ⟨e.kind, e.context ++ [a]⟩]
      simp
  · simp only [Error.displayString, List.reverse_append, List.map_append,
      string_join_append, String.append_assoc]

/-- C6: tuple conversion of a `Values` list is arity-tolerant — values past the
tuple's arity are ignored, missing positions are converted from
`Value.undefined` (padding the list with `undefined` up to the arity changes
nothing) — and `Values::get` past the end of the list yields `Value.undefined`
rather than an error. -/
theorem from_values_arity_tolerant {α : Type}
    (convs : List (Value → Except Error α)) (vs : List Value) :
    from_values_tuple convs vs = from_values_tuple convs (vs.take convs.length) ∧
    from_values_tuple convs vs =
      from_values_tuple convs
        (vs ++ List.replicate (convs.length - vs.length) Value.undefined) ∧
    (∀ i, vs.length ≤ i → Values.get vs i = Value.undefined) := by
  refine ⟨?_, ?_, ?_⟩
  · induction convs generalizing vs with
    | nil => rfl
    | cons c cs ih =>
      simp only [from_values_tuple, List.length_cons, take_succ_headD, take_succ_tail]
      rw [ih vs.tail]
  · induction convs generalizing vs with
    | nil => rfl
    | cons c cs ih =>
      simp only [from_values_tuple, List.length_cons, pad_succ_headD, pad_succ_tail]
      rw [ih vs.tail]
  · intro i hi
    simp [Values.get, List.getElem?_eq_none hi]

/-- C5: the stash-key probe inside `pop_ref` terminates with a definite
verdict under the fuel bound `popRefFuel` (twice the 32-bit key space, the
maximum number of iterations before the second wrap): either it finds a key
not currently present in the stash — and `pop_ref` then returns a new
`Reference` holding that fresh unique key, with the popped value stored under
it and the rotating counter advanced to it — or it reports exhaustion, which
happens only when every key of the entire 32-bit key space is occupied, and
`pop_ref` then panics. -/
theorem pop_ref_probe_terminates (s : EngineState) (top : EVal) (rest : List EVal)
    (hstack : s.stack = top :: rest)
    (hc : s.stashCounter < keySpace) :
    (∃ res, probe s.stash popRefFuel s.stashCounter false = some res) ∧
    (∀ k, probe s.stash popRefFuel s.stashCounter false = some (some k) →
      k < keySpace ∧ s.stash k = none ∧
      ∃ s', pop_ref s = some (⟨s.ctx, k⟩, s') ∧ s'.stash k = some top ∧
        s'.stashCounter = k) ∧
    (probe s.stash popRefFuel s.stashCounter false = some none →
      (∀ j, j < keySpace → (s.stash j).isSome) ∧ pop_ref s = none) := by
  refine ⟨?_, ?_, ?_⟩
  · exact probe_isSome_of_measure s.stash popRefFuel s.stashCounter false hc
      (by simp [popRefFuel, probeMeasure]; omega)
  · intro k hk
    obtain ⟨h1, h2⟩ := probe_fresh s.stash popRefFuel s.stashCounter false k hk
    refine ⟨h1, h2,
      { s with
          stack := rest,
          stash := fun j => if j = k then some top else s.stash j,
          stashCounter := k }, ?_, ?_, rfl⟩
    · simp only [pop_ref, hstack, hk]
    · simp
  · intro hp
    refine ⟨probe_panic_full s.stash popRefFuel s.stashCounter false hc (by simp) hp, ?_⟩
    simp only [pop_ref, hstack, hp]

/-- Engine state used by the concrete witnesses: context identity `0`, one
value on the native stack, a stash holding a string object under key `0`, the
rotating counter at `5`. -/
def wStash : Nat → Option EVal :=
  fun k => if k = 0 then some (.ref 7) else none

/-- Heap classification used by the concrete witnesses. -/
def wHeap : Nat → EClass :=
  fun _ => .eString

/-- Concrete engine state with a boolean on top of the native stack. -/
def wState : EngineState :=
  ⟨0, [.boolean true], wStash, 5, wHeap⟩

/-- Witness for `pop_ref_probe_terminates` at a concrete engine state. -/
theorem pop_ref_probe_terminates_witness :
    (∃ res, probe wState.stash popRefFuel wState.stashCounter false = some res) ∧
    (∀ k, probe wState.stash popRefFuel wState.stashCounter false = some (some k) →
      k < keySpace ∧ wState.stash k = none ∧
      ∃ s', pop_ref wState = some (⟨wState.ctx, k⟩, s') ∧
        s'.stash k = some (.boolean true) ∧ s'.stashCounter = k) ∧
    (probe wState.stash popRefFuel wState.stashCounter false = some none →
      (∀ j, j < keySpace → (wState.stash j).isSome) ∧ pop_ref wState = none) :=
  pop_ref_probe_terminates wState (.boolean true) [] rfl (by decide)

/-- C1: cloning a Reference allocates a new stash slot key, distinct from the
original's, pointing at the same underlying engine value; afterwards dropping
either of the two References leaves the other's slot intact, and the remaining
Reference still dereferences (via `push_ref`) to the same underlying value —
until its own drop, which empties its slot. -/
theorem clone_ref_independent (s : EngineState) (r : Ref) (v : EVal)
    (hctx : r.ctx = s.ctx)
    (hv : s.stash r.stash_key = some v)
    (hc : s.stashCounter < keySpace)
    (hfree : ∃ k, k < keySpace ∧ s.stash k = none) :
    ∃ r' s', clone_ref s r = some (r', s') ∧
      r'.ctx = s.ctx ∧
      r'.stash_key ≠ r.stash_key ∧
      s'.stash r.stash_key = some v ∧
      s'.stash r'.stash_key = some v ∧
      push_ref (drop_ref s' r) r' =
        some { drop_ref s' r with stack := v :: (drop_ref s' r).stack } ∧
      push_ref (drop_ref s' r') r =
        some { drop_ref s' r' with stack := v :: (drop_ref s' r').stack } ∧
      (drop_ref (drop_ref s' r) r').stash r'.stash_key = none ∧
      (drop_ref (drop_ref s' r') r).stash r.stash_key = none := by
  have hpush : push_ref s r = some { s with stack := v :: s.stack } := by
    simp [push_ref, hctx, hv]
  obtain ⟨k, hk, hknone, hpop⟩ :=
    pop_ref_spec { s with stack := v :: s.stack } v s.stack rfl hc hfree
  have hkr : k ≠ r.stash_key := by
    intro heq
    rw [heq, hv] at hknone
    exact absurd hknone (by simp)
  refine ⟨⟨s.ctx, k⟩,
    { s with
        stash := fun j => if j = k then some v else s.stash j,
        stashCounter := k }, ?_, rfl, hkr, ?_, ?_, ?_, ?_, ?_, ?_⟩
  · simp only [clone_ref, hpush]
    exact hpop
  · simp [Ne.symm hkr, hv]
  · simp
  · simp [push_ref, drop_ref, hkr]
  · simp [push_ref, drop_ref, hctx, Ne.symm hkr, hv]
  · simp [drop_ref]
  · simp [drop_ref, Ne.symm hkr]

/-- Witness for `clone_ref_independent`: cloning the reference owning key `0`
of `wState` (whose slot holds the heap object `7`). -/
theorem clone_ref_independent_witness :
    ∃ r' s', clone_ref wState ⟨0, 0⟩ = some (r', s') ∧
      r'.ctx = wState.ctx ∧
      r'.stash_key ≠ (⟨0, 0⟩ : Ref).stash_key ∧
      s'.stash (⟨0, 0⟩ : Ref).stash_key = some (.ref 7) ∧
      s'.stash r'.stash_key = some (.ref 7) ∧
      push_ref (drop_ref s' ⟨0, 0⟩) r' =
        some { drop_ref s' ⟨0, 0⟩ with
                 stack := .ref 7 :: (drop_ref s' ⟨0, 0⟩).stack } ∧
      push_ref (drop_ref s' r') ⟨0, 0⟩ =
        some { drop_ref s' r' with stack := .ref 7 :: (drop_ref s' r').stack } ∧
      (drop_ref (drop_ref s' ⟨0, 0⟩) r').stash r'.stash_key = none ∧
      (drop_ref (drop_ref s' r') ⟨0, 0⟩).stash (⟨0, 0⟩ : Ref).stash_key = none :=
  clone_ref_independent wState ⟨0, 0⟩ (.ref 7) rfl rfl (by decide) ⟨1, by decide, rfl⟩

/-- C2: pushing a well-formed `Value` with `push_value` and popping it back
with `pop_value` yields a value of the same tagged kind; primitive kinds carry
an equal payload, and reference kinds come back referring to the identical
underlying engine-heap object (the new stash slot holds the very same engine
value as the original's slot). -/
theorem push_pop_value_roundtrip (s : EngineState) (v : Value)
    (hwf : ValueWF s v)
    (hc : s.stashCounter < keySpace)
    (hfree : ∃ k, k < keySpace ∧ s.stash k = none) :
    ∃ s1 v' s2, push_value s v = some s1 ∧ pop_value s1 = some (v', s2) ∧
      v'.kind = v.kind ∧ RoundTripEq s s2 v v' := by
  cases v with
  | undefined => exact ⟨_, _, _, rfl, rfl, rfl, trivial⟩
  | null => exact ⟨_, _, _, rfl, rfl, rfl, trivial⟩
  | boolean b => exact ⟨_, _, _, rfl, rfl, rfl, rfl⟩
  | number n => exact ⟨_, _, _, rfl, rfl, rfl, rfl⟩
  | string r =>
    obtain ⟨hctx, id, hstash, hclass⟩ := hwf
    have hpush : push_value s (.string r) =
        some { s with stack := .ref id :: s.stack } := by
      simp [push_value, push_ref, hctx, hstash]
    obtain ⟨k, hk, hknone, hpop⟩ :=
      pop_ref_spec { s with stack := .ref id :: s.stack } (.ref id) s.stack rfl hc hfree
    have htype : dukGetType { s with stack := .ref id :: s.stack } (.ref id) = .tString := by
      simp [dukGetType, hclass]
    refine ⟨_, .string ⟨s.ctx, k⟩,
      { s with
          stash := fun j => if j = k then some (.ref id) else s.stash j,
          stashCounter := k }, hpush, ?_, rfl, ?_⟩
    · simp only [pop_value, htype, hpop]
    · exact ⟨by rw [hstash]; simp, by rw [hstash]; rfl⟩
  | function r =>
    obtain ⟨hctx, id, hstash, hclass⟩ := hwf
    have hpush : push_value s (.function r) =
        some { s with stack := .ref id :: s.stack } := by
      simp [push_value, push_ref, hctx, hstash]
    obtain ⟨k, hk, hknone, hpop⟩ :=
      pop_ref_spec { s with stack := .ref id :: s.stack } (.ref id) s.stack rfl hc hfree
    have htype : dukGetType { s with stack := .ref id :: s.stack } (.ref id) = .tObject := by
      simp [dukGetType, hclass]
    have hfun : dukIsFunction { s with stack := .ref id :: s.stack } (.ref id) = true := by
      simp [dukIsFunction, hclass]
    refine ⟨_, .function ⟨s.ctx, k⟩,
      { s with
          stash := fun j => if j = k then some (.ref id) else s.stash j,
          stashCounter := k }, hpush, ?_, rfl, ?_⟩
    · simp only [pop_value, htype, hfun, if_true, hpop]
    · exact ⟨by rw [hstash]; simp, by rw [hstash]; rfl⟩
  | array r =>
    obtain ⟨hctx, id, hstash, hclass⟩ := hwf
    have hpush : push_value s (.array r) =
        some { s with stack := .ref id :: s.stack } := by
      simp [push_value, push_ref, hctx, hstash]
    obtain ⟨k, hk, hknone, hpop⟩ :=
      pop_ref_spec { s with stack := .ref id :: s.stack } (.ref id) s.stack rfl hc hfree
    have htype : dukGetType { s with stack := .ref id :: s.stack } (.ref id) = .tObject := by
      simp [dukGetType, hclass]
    have hfun : dukIsFunction { s with stack := .ref id :: s.stack } (.ref id) = false := by
      simp [dukIsFunction, hclass]
    have harr : dukIsArray { s with stack := .ref id :: s.stack } (.ref id) = true := by
      simp [dukIsArray, hclass]
    refine ⟨_, .array ⟨s.ctx, k⟩,
      { s with
          stash := fun j => if j = k then some (.ref id) else s.stash j,
          stashCounter := k }, hpush, ?_, rfl, ?_⟩
    · simp only [pop_value, htype, hfun, harr, Bool.false_eq_true, if_false, if_true, hpop]
    · exact ⟨by rw [hstash]; simp, by rw [hstash]; rfl⟩
  | object r =>
    obtain ⟨hctx, id, hstash, hclass⟩ := hwf
    have hpush : push_value s (.object r) =
        some { s with stack := .ref id :: s.stack } := by
      simp [push_value, push_ref, hctx, hstash]
    obtain ⟨k, hk, hknone, hpop⟩ :=
      pop_ref_spec { s with stack := .ref id :: s.stack } (.ref id) s.stack rfl hc hfree
    have htype : dukGetType { s with stack := .ref id :: s.stack } (.ref id) = .tObject := by
      simp [dukGetType, hclass]
    have hfun : dukIsFunction { s with stack := .ref id :: s.stack } (.ref id) = false := by
      simp [dukIsFunction, hclass]
    have harr : dukIsArray { s with stack := .ref id :: s.stack } (.ref id) = false := by
      simp [dukIsArray, hclass]
    refine ⟨_, .object ⟨s.ctx, k⟩,
      { s with
          stash := fun j => if j = k then some (.ref id) else s.stash j,
          stashCounter := k }, hpush, ?_, rfl, ?_⟩
    · simp only [pop_value, htype, hfun, harr, Bool.false_eq_true, if_false, hpop]
    · exact ⟨by rw [hstash]; simp, by rw [hstash]; rfl⟩
  | bytes r =>
    obtain ⟨hctx, id, hstash, hclass⟩ := hwf
    have hpush : push_value s (.bytes r) =
        some { s with stack := .ref id :: s.stack } := by
      simp [push_value, push_ref, hctx, hstash]
    obtain ⟨k, hk, hknone, hpop⟩ :=
      pop_ref_spec { s with stack := .ref id :: s.stack } (.ref id) s.stack rfl hc hfree
    have htype : dukGetType { s with stack := .ref id :: s.stack } (.ref id) = .tBuffer := by
      simp [dukGetType, hclass]
    refine ⟨_, .bytes ⟨s.ctx, k⟩,
      { s with
          stash := fun j => if j = k then some (.ref id) else s.stash j,
          stashCounter := k }, hpush, ?_, rfl, ?_⟩
    · simp only [pop_value, htype, hpop]
    · exact ⟨by rw [hstash]; simp, by rw [hstash]; rfl⟩

/-- Witness for `push_pop_value_roundtrip`: round-tripping the string value
whose reference owns key `0` of `wState`. -/
theorem push_pop_value_roundtrip_witness :
    ∃ s1 v' s2, push_value wState (.string ⟨0, 0⟩) = some s1 ∧
      pop_value s1 = some (v', s2) ∧
      v'.kind = (Value.string ⟨0, 0⟩).kind ∧
      RoundTripEq wState s2 (.string ⟨0, 0⟩) v' :=
  push_pop_value_roundtrip wState (.string ⟨0, 0⟩) ⟨rfl, 7, rfl, rfl⟩ (by decide)
    ⟨1, by decide, rfl⟩

/-- C8: for every classifiable top slot, `pop_value`'s result kind follows the
specified predicate order (`specClassify`: is-function, is-array, is-buffer,
is-string, else generic object); but for an unclassifiable slot (e.g. a
`DUK_TYPE_POINTER` value) `pop_value` does NOT return `Value::Undefined`: the
`_ => Value::Undefined` arm fails to pop the slot, so the enclosing
`assert_stack!` height check (an unconditional `assert_eq!`) fails and the
process panics (`none`), contradicting both the claim and the function's own
doc comment. -/
theorem pop_value_classification (s : EngineState) (top : EVal) (rest : List EVal)
    (hstack : s.stack = top :: rest)
    (hc : s.stashCounter < keySpace)
    (hfree : ∃ k, k < keySpace ∧ s.stash k = none) :
    (dukGetType s top ≠ .tPointer →
      ∃ v' s', pop_value s = some (v', s') ∧ v'.kind = specClassify s top) ∧
    (dukGetType s top = .tPointer → pop_value s = none) := by
  constructor
  · intro hne
    cases top with
    | undef =>
      exact ⟨.undefined, { s with stack := rest }, by simp only [pop_value, hstack]; rfl, rfl⟩
    | null =>
      exact ⟨.null, { s with stack := rest }, by simp only [pop_value, hstack]; rfl, rfl⟩
    | boolean b =>
      exact ⟨.boolean b, { s with stack := rest },
        by simp only [pop_value, hstack]; rfl, rfl⟩
    | number n =>
      exact ⟨.number n, { s with stack := rest },
        by simp only [pop_value, hstack]; rfl, rfl⟩
    | pointer p => exact absurd rfl hne
    | ref id =>
      obtain ⟨k, hk, hknone, hpop⟩ := pop_ref_spec s (.ref id) rest hstack hc hfree
      rcases hclass : s.heap id with hf | ha | ho | hs | hb
      · have htype : dukGetType s (.ref id) = .tObject := by simp [dukGetType, hclass]
        have hfun : dukIsFunction s (.ref id) = true := by simp [dukIsFunction, hclass]
        refine ⟨.function ⟨s.ctx, k⟩,
          { s with
              stack := rest,
              stash := fun j => if j = k then some (.ref id) else s.stash j,
              stashCounter := k }, ?_, ?_⟩
        · simp only [pop_value, hstack, htype, hfun, if_true, hpop]
        · simp [Value.kind, specClassify, hfun]
      · have htype : dukGetType s (.ref id) = .tObject := by simp [dukGetType, hclass]
        have hfun : dukIsFunction s (.ref id) = false := by simp [dukIsFunction, hclass]
        have harr : dukIsArray s (.ref id) = true := by simp [dukIsArray, hclass]
        refine ⟨.array ⟨s.ctx, k⟩,
          { s with
              stack := rest,
              stash := fun j => if j = k then some (.ref id) else s.stash j,
              stashCounter := k }, ?_, ?_⟩
        · simp only [pop_value, hstack, htype, hfun, harr, Bool.false_eq_true, if_false,
            if_true, hpop]
        · simp [Value.kind, specClassify, hfun, harr]
      · have htype : dukGetType s (.ref id) = .tObject := by simp [dukGetType, hclass]
        have hfun : dukIsFunction s (.ref id) = false := by simp [dukIsFunction, hclass]
        have harr : dukIsArray s (.ref id) = false := by simp [dukIsArray, hclass]
        refine ⟨.object ⟨s.ctx, k⟩,
          { s with
              stack := rest,
              stash := fun j => if j = k then some (.ref id) else s.stash j,
              stashCounter := k }, ?_, ?_⟩
        · simp only [pop_value, hstack, htype, hfun, harr, Bool.false_eq_true, if_false, hpop]
        · simp [Value.kind, specClassify, hfun, harr, htype]
      · have htype : dukGetType s (.ref id) = .tString := by simp [dukGetType, hclass]
        have hfun : dukIsFunction s (.ref id) = false := by simp [dukIsFunction, hclass]
        have harr : dukIsArray s (.ref id) = false := by simp [dukIsArray, hclass]
        refine ⟨.string ⟨s.ctx, k⟩,
          { s with
              stack := rest,
              stash := fun j => if j = k then some (.ref id) else s.stash j,
              stashCounter := k }, ?_, ?_⟩
        · simp only [pop_value, hstack, htype, hpop]
        · simp [Value.kind, specClassify, hfun, harr, htype]
      · have htype : dukGetType s (.ref id) = .tBuffer := by simp [dukGetType, hclass]
        have hfun : dukIsFunction s (.ref id) = false := by simp [dukIsFunction, hclass]
        have harr : dukIsArray s (.ref id) = false := by simp [dukIsArray, hclass]
        refine ⟨.bytes ⟨s.ctx, k⟩,
          { s with
              stack := rest,
              stash := fun j => if j = k then some (.ref id) else s.stash j,
              stashCounter := k }, ?_, ?_⟩
        · simp only [pop_value, hstack, htype, hpop]
        · simp [Value.kind, specClassify, hfun, harr, htype]
  · intro hp
    cases top with
    | undef => simp [dukGetType] at hp
    | null => simp [dukGetType] at hp
    | boolean b => simp [dukGetType] at hp
    | number n => simp [dukGetType] at hp
    | ref id =>
      exfalso
      rcases hclass : s.heap id with hf | ha | ho | hs | hb <;>
        simp [dukGetType, hclass] at hp
    | pointer p => simp only [pop_value, hstack]; rfl

/-- Concrete engine state with an unclassifiable `DUK_TYPE_POINTER` value on
top of the native stack: the failing input for `pop_value`'s fallback arm. -/
def wStatePtr : EngineState :=
  ⟨0, [.pointer 3], wStash, 5, wHeap⟩

/-- Witness for `pop_value_classification` at the pointer-topped state: the
hypothesis side is discharged concretely, and the second conjunct yields the
panic on the failing input. -/
theorem pop_value_classification_witness :
    (dukGetType wStatePtr (.pointer 3) ≠ .tPointer →
      ∃ v' s', pop_value wStatePtr = some (v', s') ∧
        v'.kind = specClassify wStatePtr (.pointer 3)) ∧
    (dukGetType wStatePtr (.pointer 3) = .tPointer → pop_value wStatePtr = none) :=
  pop_value_classification wStatePtr (.pointer 3) [] rfl (by decide) ⟨1, by decide, rfl⟩

/-- Witness for `from_values_arity_tolerant` on a one-converter tuple applied
to an empty argument list. -/
theorem from_values_arity_tolerant_witness :
    (from_values_tuple [fun v => (.ok v : Except Error Value)] [] =
      from_values_tuple [fun v => (.ok v : Except Error Value)]
        (([] : List Value).take 1) ∧
    from_values_tuple [fun v => (.ok v : Except Error Value)] [] =
      from_values_tuple [fun v => (.ok v : Except Error Value)]
        (([] : List Value) ++ List.replicate (1 - 0) Value.undefined) ∧
    (∀ i, ([] : List Value).length ≤ i → Values.get [] i = Value.undefined)) :=
  from_values_arity_tolerant [fun v => (.ok v : Except Error Value)] []

end Ducc
